import Mathlib

/-!
Verification of the document-ingestion / AI-orchestration pipeline of the
`candidate_eval` backend (job-offer creation path).

The Lean definitions below are shallow embeddings of the Python source:
* `app/utils/langflow_utils.py`  — `parse_skills_response` (with its use of
  `json.loads` and the fenced-block regex search);
* `app/utils/document_utils.py`  — `validate_document_type`,
  `extract_text_from_pdf`, `extract_text_from_document`, `process_document`;
* `app/services/langflow_client.py` — `_set_headers`, `request` (error
  classification and effective timeout);
* `app/repositories/job_offer_skill.py` — `bulk_create`;
* `app/api/routers/job_offers.py` — `create_job_offer` (the coordinator).

External effects (object storage, the remote Langflow HTTP service, the
database session) are modelled as explicit outcome parameters threaded
through the definitions; instrumented variants additionally record
observable control-flow facts (cooperative yields, whether the fenced-block
search ran, which flows were invoked, DB create/remove).
-/

namespace CandidateEval

/-! ### Python character-class helpers

`pyRegexSpace` is the ASCII part of Python's regex `\s` class; `pyJsonWs`
is the exact whitespace set skipped by `json.loads` (`' \t\n\r'`).
`str.strip()` with no argument strips the same ASCII whitespace set
(plus further Unicode whitespace, which does not occur in our inputs). -/

def pyRegexSpace (c : Char) : Bool :=
  c = ' ' || c = '\t' || c = '\n' || c = '\r' || c = '\x0b' || c = '\x0c'

def pyJsonWs (c : Char) : Bool :=
  c = ' ' || c = '\t' || c = '\n' || c = '\r'

def pyStripChars (cs : List Char) : List Char :=
  ((cs.dropWhile pyRegexSpace).reverse.dropWhile pyRegexSpace).reverse

/-- Model of Python `str.strip()` (no argument). -/
def pyStrip (s : String) : String :=
  String.mk (pyStripChars s.toList)

/-- Model of Python `str.lower()` (ASCII range suffices for content types). -/
def pyLower (s : String) : String :=
  String.mk (s.toList.map Char.toLower)

/-- First index at which `needle` occurs as a contiguous sublist of `hay`. -/
def listFindSub (needle : List Char) : List Char → Option Nat
  | [] => if needle.isEmpty then some 0 else none
  | c :: cs =>
    if needle.isPrefixOf (c :: cs) then some 0
    else (listFindSub needle cs).map (· + 1)

/-- Model of the Python substring test `needle in hay`. -/
def strContains (hay needle : String) : Bool :=
  (listFindSub needle.toList hay.toList).isSome

/-! ### JSON values (result of `json.loads`) -/

/-- A decoded Python JSON value. Objects keep their members in source
order (duplicate keys possible in the raw member list; lookup takes the
last occurrence, as Python dict construction does). -/
inductive Json where
  | null : Json
  | bool (b : Bool) : Json
  | num (q : ℚ) : Json
  | str (s : String) : Json
  | arr (items : List Json) : Json
  | obj (members : List (String × Json)) : Json

/-- Python dict lookup on decoded object members: last write wins. -/
def objGet (kvs : List (String × Json)) (k : String) : Option Json :=
  kvs.foldl (fun acc p => if p.1 = k then some p.2 else acc) none

def Json.isArr : Json → Bool
  | .arr _ => true
  | _ => false

/-! ### Model of `json.loads`

A recursive-descent decoder for the strict JSON accepted by Python's
`json.loads` (default arguments): `' \t\n\r'` inter-token whitespace,
double-quoted strings with the standard escapes (raw control characters
rejected, `strict=True`), numbers `-?(0|[1-9][0-9]*)(.[0-9]+)?([eE][+-]?[0-9]+)?`,
`true`/`false`/`null`, arrays and objects without trailing commas.
Python's non-standard `NaN`/`Infinity` literals and surrogate-pair
combination in `\uXXXX` escapes are not modelled (they occur in none of
the inputs under study). Recursion is bounded by a fuel parameter that is
amply larger than the number of grammar steps an input of its length can
take, so fuel exhaustion never fires on any input fed to the top-level
entry point. -/

def skipJWs : List Char → List Char
  | [] => []
  | c :: cs => if pyJsonWs c then skipJWs cs else c :: cs

def hexVal (c : Char) : Option ℕ :=
  if '0' ≤ c ∧ c ≤ '9' then some (c.toNat - '0'.toNat)
  else if 'a' ≤ c ∧ c ≤ 'f' then some (c.toNat - 'a'.toNat + 10)
  else if 'A' ≤ c ∧ c ≤ 'F' then some (c.toNat - 'A'.toNat + 10)
  else none

def parseStrAux : List Char → List Char → Option (String × List Char)
  | _, [] => none
  | acc, c :: cs =>
    if c = '"' then some (String.mk acc.reverse, cs)
    else if c = '\\' then
      match cs with
      | [] => none
      | e :: cs2 =>
        if e = '"' then parseStrAux ('"' :: acc) cs2
        else if e = '\\' then parseStrAux ('\\' :: acc) cs2
        else if e = '/' then parseStrAux ('/' :: acc) cs2
        else if e = 'b' then parseStrAux ('\x08' :: acc) cs2
        else if e = 'f' then parseStrAux ('\x0c' :: acc) cs2
        else if e = 'n' then parseStrAux ('\n' :: acc) cs2
        else if e = 'r' then parseStrAux ('\r' :: acc) cs2
        else if e = 't' then parseStrAux ('\t' :: acc) cs2
        else if e = 'u' then
          match cs2 with
          | h1 :: h2 :: h3 :: h4 :: cs3 =>
            match hexVal h1, hexVal h2, hexVal h3, hexVal h4 with
            | some a, some b, some c2, some d =>
              parseStrAux (Char.ofNat (((a * 16 + b) * 16 + c2) * 16 + d) :: acc) cs3
            | _, _, _, _ => none
          | _ => none
        else none
    else if c.toNat < 32 then none
    else parseStrAux (c :: acc) cs

/-- Consume a run of decimal digits, returning accumulated value, number
of digits consumed, and the remaining input. -/
def digitsAux (v n : ℕ) : List Char → ℕ × ℕ × List Char
  | [] => (v, n, [])
  | c :: cs =>
    if '0' ≤ c ∧ c ≤ '9' then digitsAux (v * 10 + (c.toNat - 48)) (n + 1) cs
    else (v, n, c :: cs)

def parseIntPart : List Char → Option (ℕ × List Char)
  | [] => none
  | c :: cs =>
    if c = '0' then some (0, cs)
    else if '1' ≤ c ∧ c ≤ '9' then
      let t := digitsAux (c.toNat - 48) 1 cs
      some (t.1, t.2.2)
    else none

def parseFracPart : List Char → Option (ℕ × ℕ × List Char)
  | '.' :: cs =>
    let t := digitsAux 0 0 cs
    if t.2.1 = 0 then none else some (t.1, t.2.1, t.2.2)
  | cs => some (0, 0, cs)

def parseExpPart : List Char → Option (ℤ × List Char)
  | [] => some (0, [])
  | c :: cs =>
    if c = 'e' ∨ c = 'E' then
      let p : ℤ × List Char :=
        match cs with
        | '+' :: r => (1, r)
        | '-' :: r => (-1, r)
        | r => (1, r)
      let t := digitsAux 0 0 p.2
      if t.2.1 = 0 then none else some (p.1 * (t.1 : ℤ), t.2.2)
    else some (0, c :: cs)

def parseNumber (cs : List Char) : Option (ℚ × List Char) :=
  let sgn : Bool × List Char :=
    match cs with
    | '-' :: r => (true, r)
    | _ => (false, cs)
  match parseIntPart sgn.2 with
  | none => none
  | some (i, r1) =>
    match parseFracPart r1 with
    | none => none
    | some (f, k, r2) =>
      match parseExpPart r2 with
      | none => none
      | some (e, r3) =>
        let m : ℚ := (i : ℚ) + (f : ℚ) / ((10 : ℚ) ^ k)
        some ((if sgn.1 then -m else m) * (10 : ℚ) ^ e, r3)

mutual

def parseValue : ℕ → List Char → Option (Json × List Char)
  | 0, _ => none
  | fuel + 1, cs =>
    match skipJWs cs with
    | [] => none
    | c :: rest =>
      if c = '{' then
        match skipJWs rest with
        | '}' :: r2 => some (.obj [], r2)
        | r2 => parseMembers fuel r2 []
      else if c = '[' then
        match skipJWs rest with
        | ']' :: r2 => some (.arr [], r2)
        | r2 => parseItems fuel r2 []
      else if c = '"' then
        match parseStrAux [] rest with
        | some (s, r2) => some (.str s, r2)
        | none => none
      else if c = 't' then
        if ['r', 'u', 'e'].isPrefixOf rest then some (.bool true, rest.drop 3) else none
      else if c = 'f' then
        if ['a', 'l', 's', 'e'].isPrefixOf rest then some (.bool false, rest.drop 4) else none
      else if c = 'n' then
        if ['u', 'l', 'l'].isPrefixOf rest then some (.null, rest.drop 3) else none
      else
        match parseNumber (c :: rest) with
        | some (q, r2) => some (.num q, r2)
        | none => none

def parseItems : ℕ → List Char → List Json → Option (Json × List Char)
  | 0, _, _ => none
  | fuel + 1, cs, acc =>
    match parseValue fuel cs with
    | none => none
    | some (v, r) =>
      match skipJWs r with
      | ',' :: r2 => parseItems fuel r2 (acc ++ [v])
      | ']' :: r2 => some (.arr (acc ++ [v]), r2)
      | _ => none

def parseMembers : ℕ → List Char → List (String × Json) → Option (Json × List Char)
  | 0, _, _ => none
  | fuel + 1, cs, acc =>
    match skipJWs cs with
    | '"' :: r =>
      match parseStrAux [] r with
      | none => none
      | some (k, r2) =>
        match skipJWs r2 with
        | ':' :: r3 =>
          match parseValue fuel r3 with
          | none => none
          | some (v, r4) =>
            match skipJWs r4 with
            | ',' :: r5 => parseMembers fuel r5 (acc ++ [(k, v)])
            | '}' :: r5 => some (.obj (acc ++ [(k, v)]), r5)
            | _ => none
        | _ => none
    | _ => none

end

/-- Model of `json.loads`: decode one JSON value and require that only
whitespace follows; `none` models a raised `json.JSONDecodeError`. -/
def json_loads (s : String) : Option Json :=
  match parseValue (3 * s.toList.length + 3) s.toList with
  | some (v, rest) => if (skipJWs rest).isEmpty then some v else none
  | none => none

/-! ### Model of the fenced-block search in `parse_skills_response`

`re.search(r'```json\s*(.*?)\s*```', text, re.DOTALL)`, group 1.
The regex engine takes the leftmost occurrence of the literal
` ```json `; the greedy `\s*` then absorbs the maximal whitespace run;
the lazy group ends at the earliest point from which the trailing
`\s*` ``` ` ``` ` ``` ` can complete, i.e. just before the first later
occurrence of three backticks, with the whitespace immediately preceding
those backticks absorbed by the trailing `\s*`. (A later start position
can never succeed where the leftmost one fails: any later full match
would itself contain three backticks that already close the leftmost
occurrence, and backticks cannot occur inside the absorbed whitespace
runs.) -/

def fenceGroup (s : String) : Option String :=
  let cs := s.toList
  match listFindSub "```json".toList cs with
  | none => none
  | some i =>
    let afterTag := (cs.drop (i + 7)).dropWhile pyRegexSpace
    match listFindSub "```".toList afterTag with
    | none => none
    | some j =>
      some (String.mk (((afterTag.take j).reverse.dropWhile pyRegexSpace).reverse))

/-! ### `parse_skills_response` (`app/utils/langflow_utils.py`)

The instrumented variant also records whether the fenced-block search in
the `except json.JSONDecodeError` branch was executed. Note the
control flow of the source: when `json.loads` succeeds the function never
enters the `except` branch — a successful decode without a `"skills"`
field falls through directly to `return []`. -/

structure ParseOut where
  result : Json
  fenceSearched : Bool

def parseSkillsInstr (s : String) : ParseOut :=
  match json_loads s with
  | some d =>
    match d with
    | .obj kvs =>
      match objGet kvs "skills" with
      | some v => ⟨v, false⟩
      | none => ⟨.arr [], false⟩
    | _ => ⟨.arr [], false⟩
  | none =>
    match fenceGroup s with
    | none => ⟨.arr [], true⟩
    | some g =>
      match json_loads g with
      | some (.obj kvs) =>
        match objGet kvs "skills" with
        | some v => ⟨v, true⟩
        | none => ⟨.arr [], true⟩
      | _ => ⟨.arr [], true⟩

/-- The value returned by `parse_skills_response`. In the source its
annotated type is `List[Dict[str, Any]]`, but the function returns
`data["skills"]` verbatim, which can be any decoded JSON value; the
model therefore returns `Json` (with `Json.arr []` for the empty list). -/
def parse_skills_response (s : String) : Json :=
  (parseSkillsInstr s).result

/-! ### Header composition (`LangflowClient._set_headers` / `_set_api_key`)

Python dicts are modelled as association lists without duplicate keys;
`setHeader` is dict assignment `d[k] = v` (in-place update of an existing
key, else append, preserving insertion order). The client's `api_key` is
a string whose Python truthiness gate `if self.api_key:` is modelled as
non-emptiness. -/

def setHeader (hs : List (String × String)) (k v : String) : List (String × String) :=
  if hs.any (fun p => p.1 = k) then hs.map (fun p => if p.1 = k then (k, v) else p)
  else hs ++ [(k, v)]

def set_headers (defaults : List (String × String)) (apiKey : String)
    (callHeaders : List (String × String)) : List (String × String) :=
  let combined := callHeaders.foldl (fun acc p => setHeader acc p.1 p.2) defaults
  if apiKey ≠ "" then setHeader combined "x-api-key" apiKey else combined

/-! ### `LangflowClient.request` (`app/services/langflow_client.py`)

The HTTP exchange itself is abstracted as an `Outcome` supplied by the
environment; the model captures the error classification performed by the
`try/except` ladder of `request` and the effective-timeout computation
`timeout = options.timeout or self.timeout` (Python `or`: a `None` or
`0.0` per-call value falls back to the client default). The f-string
messages of the raised exceptions are modelled structurally by `ErrMsg`
so that the values they interpolate are preserved exactly. -/

/-- Python `options.timeout or self.timeout` on float timeouts. -/
def pyOrQ (o : Option ℚ) (d : ℚ) : ℚ :=
  match o with
  | none => d
  | some t => if t = 0 then d else t

structure ResponseModel where
  status : ℕ
  reason : String
  body : Json

/-- Outcome of the underlying `httpx` call. -/
inductive Outcome where
  | response (r : ResponseModel)
  | timeout
  | transportError (msg : String)
  | otherError (msg : String)

/-- Structural model of the f-string messages in `request`. -/
inductive ErrMsg where
  | statusLine (status : ℕ) (reason : String)
  | timedOut (timeout : ℚ)
  | requestFailed (msg : String)
  | unexpected (msg : String)
deriving DecidableEq

/-- The exception hierarchy of `langflow_client.py` as a closed variant
type: `langflowError` is a plain `LangflowError` (carrying the raw
response), `langflowRequestError` a `LangflowRequestError`. -/
inductive LangflowExc where
  | langflowError (msg : ErrMsg) (response : ResponseModel)
  | langflowRequestError (msg : ErrMsg)

/-- Model of `httpx.Response.is_success`: 2xx. -/
def is_success (status : ℕ) : Bool :=
  200 ≤ status && status < 300

def request (defaultTimeout : ℚ) (optionsTimeout : Option ℚ) (outcome : Outcome) :
    Except LangflowExc Json :=
  let timeout := pyOrQ optionsTimeout defaultTimeout
  match outcome with
  | .response r =>
    if is_success r.status then .ok r.body
    else .error (.langflowError (.statusLine r.status r.reason) r)
  | .timeout => .error (.langflowRequestError (.timedOut timeout))
  | .transportError m => .error (.langflowRequestError (.requestFailed m))
  | .otherError m => .error (.langflowRequestError (.unexpected m))

/-! ### Document processing (`app/utils/document_utils.py`)

A `Doc` carries the declared content type together with the outcomes of
the binary-level operations the Python code delegates to libraries:
`pdfPages` is the result of reading the payload with `PyPDF2` and
calling `extract_text()` on every page (`.error` models any exception
raised there), and `utf8` is the result of `content.decode('utf-8')`. -/

structure Doc where
  content_type : String
  bytesLen : ℕ
  pdfPages : Except String (List String)
  utf8 : Except String String

def ALLOWED_DOCUMENT_TYPES : List String :=
  ["application/pdf",
   "application/msword",
   "application/vnd.openxmlformats-officedocument.wordprocessingml.document",
   "text/plain"]

structure HTTPExc where
  status : ℕ
  detail : String
deriving DecidableEq

/-- Model of `validate_document_type`: `HTTPException(400)` on a disallowed
declared content type. -/
def validate_document_type (doc : Doc) : Except HTTPExc Unit :=
  if ALLOWED_DOCUMENT_TYPES.contains doc.content_type then .ok ()
  else .error ⟨400, "File must be a PDF, Word document or a text file"⟩

/-- The page loop of `extract_text_from_pdf`, instrumented: returns the
accumulated text (`text += page.extract_text() + "\n"` for each page)
together with the 0-based indices of the pages after which the loop
yielded to the scheduler (`if page_num % 5 == 0: await asyncio.sleep(0)`). -/
def pdfLoopAux : List String → ℕ → String × List ℕ
  | [], _ => ("", [])
  | p :: rest, i =>
    let t := pdfLoopAux rest (i + 1)
    (p ++ "\n" ++ t.1, (if i % 5 = 0 then [i] else []) ++ t.2)

def extract_text_from_pdf (pages : List String) : String × List ℕ :=
  pdfLoopAux pages 0

/-- Model of `extract_text_from_document`: strategy dispatch on the lowercased
content type via Python substring tests, with the outer `except` clause
re-wrapping any inner failure as a `DocumentProcessingError` (here the
`.error` case of the result, carrying the message). -/
def extract_text_from_document (doc : Doc) : Except String String :=
  let ct := pyLower doc.content_type
  let inner : Except String String :=
    if strContains ct "pdf" then
      match doc.pdfPages with
      | .error m => .error ("Error extracting text from PDF: " ++ m)
      | .ok pages => .ok (extract_text_from_pdf pages).1
    else if strContains ct "docx" || strContains ct "doc" || strContains ct "word" then
      .ok ("Document content (binary): " ++ toString doc.bytesLen ++ " bytes")
    else if strContains ct "text/plain" then
      doc.utf8
    else
      .ok ("Unknown document type: " ++ ct ++ ", size: " ++ toString doc.bytesLen ++ " bytes")
  match inner with
  | .ok t => .ok t
  | .error m => .error ("Error extracting text from document: " ++ m)

/-- Model of `process_document`: type gate, extraction, emptiness check, size.
`DocumentProcessingError` is converted to `HTTPException(400)`; the
emptiness rejection (`not extracted_text or len(extracted_text.strip()) == 0`)
is also a 400. -/
def process_document (doc : Doc) : Except HTTPExc (String × ℚ) :=
  match validate_document_type doc with
  | .error e => .error e
  | .ok _ =>
    match extract_text_from_document doc with
    | .error m => .error ⟨400, m⟩
    | .ok text =>
      if text = "" || pyStrip text = "" then
        .error ⟨400, "Could not extract text from document"⟩
      else
        .ok (text, (text.toList.length : ℚ) / 1024)

/-! ### `JobOfferSkillRepository.bulk_create` (`app/repositories/job_offer_skill.py`) -/

inductive PyErr where
  | keyError (key : String)
  | typeError (msg : String)
  | dbError (msg : String)
deriving DecidableEq

/-- Python `str()` of a decoded JSON value, as used by
`str(skill_data[...])`. This conversion is total (it never raises); the
rendering of container values is abbreviated because no claim inspects
the persisted field text. -/
def pyStr : Json → String
  | .str s => s
  | .bool b => cond b "True" "False"
  | .null => "None"
  | .num q => toString q
  | .arr _ => "<list repr>"
  | .obj _ => "<dict repr>"

structure SkillRow where
  job_offer_id : ℕ
  skill : String
  expertise_level : String
  priority : String

/-- Python `for skill_data in skills` over a decoded JSON value:
lists iterate their items, dicts their keys, strings their characters;
other values raise `TypeError`. -/
def pyIter : Json → Except PyErr (List Json)
  | .arr items => .ok items
  | .obj kvs => .ok (kvs.map (fun p => Json.str p.1))
  | .str s => .ok (s.toList.map (fun c => Json.str (String.mk [c])))
  | _ => .error (.typeError "object is not iterable")

/-- One iteration of the `bulk_create` loop: the three subscript
accesses, in source order, each raising `KeyError` when absent;
subscripting a non-dict raises `TypeError`. -/
def bulkRow (oid : ℕ) (item : Json) : Except PyErr SkillRow :=
  match item with
  | .obj kvs =>
    match objGet kvs "skill" with
    | none => .error (.keyError "skill")
    | some sv =>
      match objGet kvs "expertise_level" with
      | none => .error (.keyError "expertise_level")
      | some ev =>
        match objGet kvs "priority" with
        | none => .error (.keyError "priority")
        | some pv => .ok ⟨oid, pyStr sv, pyStr ev, pyStr pv⟩
  | _ => .error (.typeError "value is not subscriptable by string key")

/-- The `for skill_data in skills` loop of `bulk_create`: rows are built
left to right and the first raised exception aborts the loop. -/
def bulkRows (oid : ℕ) : List Json → Except PyErr (List SkillRow)
  | [] => .ok []
  | item :: rest =>
    match bulkRow oid item with
    | .error e => .error e
    | .ok row =>
      match bulkRows oid rest with
      | .error e => .error e
      | .ok rows => .ok (row :: rows)

def bulk_create (oid : ℕ) (skills : Json) (dbOk : Bool) : Except PyErr (List SkillRow) :=
  match pyIter skills with
  | .error e => .error e
  | .ok items =>
    match bulkRows oid items with
    | .error e => .error e
    | .ok rows => if dbOk then .ok rows else .error (.dbError "commit failed")

/-! ### The coordinator `create_job_offer` (`app/api/routers/job_offers.py`)

External effects are supplied as outcomes in a `RouterEnv`:
`uploadOutcome` is the MinIO upload (object name or exception),
`summaryOutcome`/`skillsOutcome` are the two flow invocations combined
with the envelope navigation `outputs[0].outputs[0].results.text.data.text`
(the extracted leaf text, or the message of whatever exception the call
raised), `createOutcome` is `job_offer_repository.create` (the new row id,
or a database exception). `job_offer_repository.create`/`remove` come
from the repository base class, which is not part of the sources under
study; they are treated as an abstract create/delete whose success or
failure the environment dictates, per the spec's collaborator interface
`job-offer/candidate/skill repositories (create, bulk-create, remove)`.

The whole handler body runs inside `try:`; the `except Exception` clause
first runs `job_offer_repository.remove` when `'job_offer' in locals()`
(i.e. exactly when the create step had completed) and then raises
`HTTPException(500, ...)` — note that this clause also catches the
`HTTPException(400)` values raised by `process_document`. The `Trace`
records which flows were invoked and whether the DB record was created
and removed. -/

structure RouterEnv where
  doc : Doc
  uploadOutcome : Except String String
  summaryOutcome : Except String String
  skillsOutcome : Except String String
  createOutcome : Except String ℕ
  bulkDbOk : Bool

structure Trace where
  summaryInvoked : Bool
  skillsInvoked : Bool
  created : Bool
  removed : Bool
deriving DecidableEq

inductive RouterResp where
  | success (id : ℕ) (title summary skillsText : String)
  | httpError (status : ℕ) (detail : String)
deriving DecidableEq

/-- Python `str(HTTPException(status, detail))` (Starlette renders
`"{status_code}: {detail}"`; the rendering of a dict detail is kept
abstract as the detail string itself). -/
def httpExcStr (e : HTTPExc) : String :=
  toString e.status ++ ": " ++ e.detail

/-- Python `str()` of the exceptions produced by `bulk_create`. -/
def pyErrStr : PyErr → String
  | .keyError k => "'" ++ k ++ "'"
  | .typeError m => m
  | .dbError m => m

/-- The `except Exception` clause: compensating `remove` iff the job
offer had been created, then `HTTPException(500)`. -/
def routerFail (created : Option ℕ) (msg : String) (summaryInv skillsInv : Bool) :
    RouterResp × Trace :=
  (.httpError 500 ("Error creating job offer: " ++ msg),
   ⟨summaryInv, skillsInv, created.isSome, created.isSome⟩)

def create_job_offer (title : String) (env : RouterEnv) : RouterResp × Trace :=
  match process_document env.doc with
  | .error e => routerFail none (httpExcStr e) false false
  | .ok (_text, _kb) =>
    match env.uploadOutcome with
    | .error m => routerFail none m false false
    | .ok _objName =>
      match env.summaryOutcome with
      | .error m => routerFail none m true false
      | .ok summaryText =>
        match env.skillsOutcome with
        | .error m => routerFail none m true true
        | .ok skillsText =>
          match env.createOutcome with
          | .error m => routerFail none m true true
          | .ok oid =>
            let skills := parse_skills_response skillsText
            match bulk_create oid skills env.bulkDbOk with
            | .error e => routerFail (some oid) (pyErrStr e) true true
            | .ok _ => (.success oid title summaryText skillsText, ⟨true, true, true, false⟩)

def respStatus : RouterResp → Option ℕ
  | .success _ _ _ _ => none
  | .httpError s _ => some s

def RouterResp.isError : RouterResp → Bool
  | .success _ _ _ _ => false
  | .httpError _ _ => true

/-! ### Derived observations and concrete inputs used in the theorems -/

/-- The `"skills"` value the first decode attempt of `parse_skills_response`
would return: `some v` iff the whole text decodes to a dict with a
`"skills"` entry `v`. -/
def firstAttemptSkills (s : String) : Option Json :=
  match json_loads s with
  | some (.obj kvs) => objGet kvs "skills"
  | _ => none

/-- The `"skills"` value the fenced-block attempt of
`parse_skills_response` would return, as a pure observation of the text. -/
def fenceAttemptSkills (s : String) : Option Json :=
  match fenceGroup s with
  | none => none
  | some g =>
    match json_loads g with
    | some (.obj kvs) => objGet kvs "skills"
    | _ => none

/-- A decoded record carrying all three fields `bulk_create` subscripts. -/
def hasSkillKeys : Json → Bool
  | .obj kvs =>
    (objGet kvs "skill").isSome && (objGet kvs "expertise_level").isSome &&
      (objGet kvs "priority").isSome
  | _ => false

def isObjRec : Json → Bool
  | .obj _ => true
  | _ => false

/-- A document with a disallowed declared content type (binary decoding
outcomes irrelevant and benign). -/
def docPng : Doc := ⟨"image/png", 10, .ok ["page"], .ok "text"⟩

/-- A `text/plain` document whose bytes fail to decode as UTF-8. -/
def docBadUtf : Doc := ⟨"text/plain", 4, .error "not a pdf", .error "invalid start byte"⟩

/-- A `text/plain` document whose extracted text is all whitespace. -/
def docWsText : Doc := ⟨"text/plain", 4, .error "not a pdf", .ok "  \n "⟩

/-- A well-behaved `text/plain` document. -/
def docTxt : Doc := ⟨"text/plain", 5, .error "not a pdf", .ok "hello"⟩

/-- An environment in which every external collaborator succeeds. -/
def envAllOk (d : Doc) : RouterEnv :=
  ⟨d, .ok "objname", .ok "summary", .ok "\x7b\"skills\": []\x7d", .ok 1, true⟩

/-- An environment in which everything up to and including the job-offer
create succeeds, and the skills text parses to a record without the
required keys, so that `bulk_create` — the step after creation — raises. -/
def envBulkFail : RouterEnv :=
  ⟨docTxt, .ok "objname", .ok "summary", .ok "\x7b\"skills\": [\x7b\x7d]\x7d", .ok 7, true⟩

/-! ## Theorems settling the claims -/

/-- Claim C1 (code bug in the router): `process_document` does raise
`HTTPException(400)` both for a disallowed declared content type and for
an extraction-time decoding failure, but `create_job_offer`'s blanket
`except Exception` catches those very exceptions and re-raises them as
HTTP 500 — so the caller sees a server error, not the client error the
claim (and the route's own `responses` declaration of 400) requires. -/
theorem C1_validation_errors_surfaced_as_500 :
    process_document docPng
        = .error ⟨400, "File must be a PDF, Word document or a text file"⟩
    ∧ respStatus (create_job_offer "t" (envAllOk docPng)).1 = some 500
    ∧ process_document docBadUtf
        = .error ⟨400, "Error extracting text from document: invalid start byte"⟩
    ∧ respStatus (create_job_offer "t" (envAllOk docBadUtf)).1 = some 500 :=
  ⟨rfl, rfl, rfl, rfl⟩

/-- Claim C9 (code bug in the router): a document whose extracted text is
all whitespace is rejected during document processing — with
`HTTPException(400)` inside `process_document`, and before either flow is
invoked — but the router's blanket `except Exception` surfaces the
rejection to the caller as HTTP 500, not 400. -/
theorem C9_whitespace_text_rejected_before_flows_but_as_500 :
    process_document docWsText = .error ⟨400, "Could not extract text from document"⟩
    ∧ respStatus (create_job_offer "t" (envAllOk docWsText)).1 = some 500
    ∧ (create_job_offer "t" (envAllOk docWsText)).2.summaryInvoked = false
    ∧ (create_job_offer "t" (envAllOk docWsText)).2.skillsInvoked = false :=
  ⟨rfl, rfl, rfl, rfl⟩

/-- Claim C6: a non-streaming flow call that receives a non-2xx HTTP
response raises a `LangflowError` carrying the status code, the status
text and the raw response, and never a `LangflowRequestError`. -/
theorem C6_non2xx_raises_flow_error :
    ∀ (dt : ℚ) (ot : Option ℚ) (r : ResponseModel), is_success r.status = false →
      request dt ot (.response r)
          = .error (.langflowError (.statusLine r.status r.reason) r)
      ∧ ∀ m, request dt ot (.response r) ≠ .error (.langflowRequestError m) := by
  intro dt ot r h
  constructor
  · simp [request, h]
  · intro m hEq
    simp [request, h] at hEq

/-- Claim C6 witness: HTTP 500 on a concrete response object. -/
theorem C6_witness :
    is_success 500 = false ∧
      request 60 none (.response ⟨500, "Internal Server Error", .null⟩)
        = .error (.langflowError (.statusLine 500 "Internal Server Error")
            ⟨500, "Internal Server Error", .null⟩) :=
  ⟨rfl, (C6_non2xx_raises_flow_error 60 none ⟨500, "Internal Server Error", .null⟩ rfl).1⟩

/-- Claim C7 counterexample: the claim says the effective timeout is the
per-call override whenever one is supplied. Supplying an override of
`0.0` (a falsy float) makes `options.timeout or self.timeout` fall back
to the client default: with default 60 the raised error references 60,
not the supplied 0. -/
theorem C7_counterexample :
    request 60 (some 0) .timeout = .error (.langflowRequestError (.timedOut 60))
    ∧ ErrMsg.timedOut 60 ≠ ErrMsg.timedOut 0 :=
  ⟨rfl, by decide⟩

/-- Claim C7 (amended): a timed-out flow call raises a
`LangflowRequestError` (never a `LangflowError`) whose message references
the effective timeout, where the effective timeout is the per-call
override when a non-zero one is supplied and the client default otherwise
(a `None` or `0.0` override falls back to the default, by Python `or`). -/
theorem C7_timeout_raises_request_error :
    ∀ (dt : ℚ) (ot : Option ℚ),
      request dt ot .timeout = .error (.langflowRequestError (.timedOut (pyOrQ ot dt)))
      ∧ (ot = none → pyOrQ ot dt = dt)
      ∧ (∀ t, ot = some t → t ≠ 0 → pyOrQ ot dt = t)
      ∧ ∀ m r, request dt ot .timeout ≠ .error (.langflowError m r) := by
  intro dt ot
  refine ⟨rfl, ?_, ?_, ?_⟩
  · rintro rfl; rfl
  · rintro t rfl ht; simp [pyOrQ, ht]
  · intro m r h; simp [request] at h

/-- Claim C7 witness: a non-zero per-call override of 30 against a client
default of 60 yields an error referencing 30. -/
theorem C7_witness :
    request 60 (some 30) .timeout = .error (.langflowRequestError (.timedOut 30)) := by
  have h := C7_timeout_raises_request_error 60 (some 30)
  have h30 : pyOrQ (some 30) 60 = 30 := h.2.2.1 30 rfl (by norm_num)
  exact h30 ▸ h.1

/-- Claim C3 counterexample: the claim says the parser always returns a
list. On input `{"skills": true}` the whole text decodes to an object
with a `"skills"` field, and the parser returns that field's value
verbatim — the boolean `true`, which is not a list. -/
theorem C3_counterexample :
    parse_skills_response "\x7b\"skills\": true\x7d" = Json.bool true
    ∧ Json.isArr (Json.bool true) = false :=
  ⟨rfl, rfl⟩

/-- Claim C3 (amended): the parser is total (the model is a total
function, mirroring the source where every fallible operation is inside a
`try`/membership guard): if the whole string decodes as a JSON object
with a `"skills"` field it returns that field's value verbatim (which
need not be a list), and whenever neither the whole-text attempt nor the
fenced-block attempt can produce a `"skills"` field it returns the empty
list rather than propagating an error. -/
theorem C3_parse_verbatim_or_empty :
    (∀ s v, firstAttemptSkills s = some v → parse_skills_response s = v)
    ∧ (∀ s, firstAttemptSkills s = none → fenceAttemptSkills s = none →
        parse_skills_response s = Json.arr []) := by
  constructor
  · intro s v h
    unfold parse_skills_response parseSkillsInstr
    unfold firstAttemptSkills at h
    rcases hj : json_loads s with _ | d
    · rw [hj] at h; simp at h
    · rw [hj] at h
      rcases d with _ | b | q | st | items | kvs <;> simp at h
      simp [hj, h]
  · intro s h1 h2
    unfold parse_skills_response parseSkillsInstr
    unfold firstAttemptSkills at h1
    unfold fenceAttemptSkills at h2
    rcases hj : json_loads s with _ | d
    · rcases hf : fenceGroup s with _ | g
      · simp [hj, hf]
      · rw [hf] at h2
        dsimp only at h2
        rcases hg : json_loads g with _ | e
        · simp [hj, hf, hg]
        · rw [hg] at h2
          rcases e with _ | b | q | st | items | kvs
          · simp [hj, hf, hg]
          · simp [hj, hf, hg]
          · simp [hj, hf, hg]
          · simp [hj, hf, hg]
          · simp [hj, hf, hg]
          · dsimp only at h2
            simp [hj, hf, hg, h2]
    · rw [hj] at h1
      rcases d with _ | b | q | st | items | kvs
      · simp [hj]
      · simp [hj]
      · simp [hj]
      · simp [hj]
      · simp [hj]
      · dsimp only at h1
        simp [hj, h1]

/-- Claim C3 witness: a well-formed skills payload is returned verbatim,
and a non-JSON input degrades to the empty list. -/
theorem C3_witness :
    parse_skills_response "\x7b\"skills\": [true]\x7d" = Json.arr [Json.bool true]
    ∧ parse_skills_response "not json at all" = Json.arr [] :=
  ⟨C3_parse_verbatim_or_empty.1 _ _ rfl, C3_parse_verbatim_or_empty.2 _ rfl rfl⟩

/-- Helper for C4: the fenced-block search runs exactly when `json.loads`
on the whole text raises. -/
theorem fenceSearched_iff_decode_fails (s : String) :
    (parseSkillsInstr s).fenceSearched = (json_loads s).isNone := by
  unfold parseSkillsInstr
  repeat' split
  all_goals simp [*]

/-- Claim C4 counterexample: the claim asserts the fenced-block attempt is
made whenever the first attempt fails *or yields no skills field*. On
`{"a": "```json true ```"}` the whole text decodes successfully (to an
object without a `"skills"` field) and the text does contain a
` ```json ` fenced block, yet the parser returns without ever running the
fenced-block search: the `re.search` lives inside the
`except json.JSONDecodeError` handler, which is not entered when the
decode succeeds. -/
theorem C4_counterexample :
    (json_loads "\x7b\"a\": \"```json true ```\"\x7d").isSome = true
    ∧ firstAttemptSkills "\x7b\"a\": \"```json true ```\"\x7d" = none
    ∧ fenceGroup "\x7b\"a\": \"```json true ```\"\x7d" = some "true"
    ∧ (parseSkillsInstr "\x7b\"a\": \"```json true ```\"\x7d").fenceSearched = false :=
  ⟨rfl, rfl, rfl, rfl⟩

/-- Claim C4 (amended): the fenced-block attempt is made exactly when the
whole-text JSON decode raises; and when it raises and the text contains a
` ```json ` fenced block whose contents decode to an object with a
`"skills"` field, the parser returns that field's value. -/
theorem C4_fence_only_on_decode_failure :
    (∀ s, (parseSkillsInstr s).fenceSearched = true ↔ json_loads s = none)
    ∧ (∀ s v, json_loads s = none → fenceAttemptSkills s = some v →
        parse_skills_response s = v) := by
  constructor
  · intro s
    rw [fenceSearched_iff_decode_fails]
    cases hj : json_loads s <;> simp
  · intro s v hj hf
    unfold parse_skills_response parseSkillsInstr
    unfold fenceAttemptSkills at hf
    rcases hfg : fenceGroup s with _ | g
    · rw [hfg] at hf; simp at hf
    · rw [hfg] at hf
      dsimp only at hf
      rcases hg : json_loads g with _ | e
      · rw [hg] at hf; simp at hf
      · rw [hg] at hf
        rcases e with _ | b | q | st | items | kvs
        · simp at hf
        · simp at hf
        · simp at hf
        · simp at hf
        · simp at hf
        · dsimp only at hf
          simp [hj, hfg, hg, hf]

/-- Claim C4 witness: on a non-JSON text carrying a fenced skills block,
the fenced-block search runs and its skills value is returned. -/
theorem C4_witness :
    (parseSkillsInstr "x ```json \x7b\"skills\": [true]\x7d ```").fenceSearched = true
    ∧ parse_skills_response "x ```json \x7b\"skills\": [true]\x7d ```"
        = Json.arr [Json.bool true] :=
  ⟨(C4_fence_only_on_decode_failure.1 _).mpr rfl,
   C4_fence_only_on_decode_failure.2 _ _ rfl rfl⟩

/-- Claim C2: whenever the coordinator fails after the job-offer record
has been created (`created = true` and an error response is surfaced),
the compensating `remove` has run; when the failure occurs before the
record is created, no deletion is attempted. In the source the `remove`
call executes before the `HTTPException(500)` is raised, sequentially
within the `except` clause. -/
theorem C2_compensating_deletion :
    ∀ (title : String) (env : RouterEnv),
      ((create_job_offer title env).2.created = true →
          (create_job_offer title env).1.isError = true →
          (create_job_offer title env).2.removed = true)
      ∧ ((create_job_offer title env).2.created = false →
          (create_job_offer title env).2.removed = false) := by
  intro title env
  rcases env with ⟨doc, up, so, ko, co, bk⟩
  dsimp only [create_job_offer]
  cases hpd : process_document doc with
  | error e => simp [routerFail, RouterResp.isError]
  | ok pr =>
    rcases pr with ⟨text, kb⟩
    cases up with
    | error m => simp [routerFail, RouterResp.isError]
    | ok objName =>
      cases so with
      | error m => simp [routerFail, RouterResp.isError]
      | ok summaryText =>
        cases ko with
        | error m => simp [routerFail, RouterResp.isError]
        | ok skillsText =>
          cases co with
          | error m => simp [routerFail, RouterResp.isError]
          | ok oid =>
            cases hb : bulk_create oid (parse_skills_response skillsText) bk with
            | error e => simp [hb, routerFail, RouterResp.isError]
            | ok rows => simp [hb, routerFail, RouterResp.isError]

/-- Claim C2 witness: a run in which everything up to and including the
create succeeds and the subsequent skill persistence raises a `KeyError`:
the record was created, an error is surfaced, and the record is removed. -/
theorem C2_witness :
    (create_job_offer "t" envBulkFail).2.created = true
    ∧ (create_job_offer "t" envBulkFail).1.isError = true
    ∧ (create_job_offer "t" envBulkFail).2.removed = true :=
  ⟨rfl, rfl, (C2_compensating_deletion "t" envBulkFail).1 rfl rfl⟩

/-- Claim C8 counterexample: the claim says the extracted text is the
pages joined by newlines and that the loop yields after every 5th page.
For a one-page PDF with page text `"a"` the loop produces `"a\n"`
(every page is followed by a newline, including the last), while joining
by newlines gives `"a"`; and for a five-page PDF the single yield happens
after the 1st page (0-based index 0, from `page_num % 5 == 0`), not after
the 5th page (index 4) as "after every 5th page" prescribes. -/
theorem C8_counterexample :
    (extract_text_from_pdf ["a"]).1 = "a\n"
    ∧ String.intercalate "\n" ["a"] = "a"
    ∧ ("a\n" : String) ≠ "a"
    ∧ (extract_text_from_pdf ["a", "b", "c", "d", "e"]).2 = [0]
    ∧ ([0] : List ℕ) ≠ [4] :=
  ⟨rfl, rfl, by decide, rfl, by decide⟩

/-- Unfolding of `String.join` over `cons`. -/
theorem strJoin_cons (a : String) (l : List String) :
    String.join (a :: l) = a ++ String.join l := by
  rcases a with ⟨d⟩
  rw [String.join_eq, String.join_eq]
  simp only [List.map_cons, List.flatten_cons]
  rfl

/-- Characterization of the instrumented PDF page loop: text is the
concatenation of pages each followed by a newline, and the loop yields
exactly after the pages whose 0-based index is divisible by 5. -/
theorem pdfLoopAux_spec (pages : List String) : ∀ i : ℕ,
    (pdfLoopAux pages i).1 = String.join (pages.map (fun p => p ++ "\n"))
    ∧ (pdfLoopAux pages i).2 = (List.range' i pages.length).filter (fun j => j % 5 = 0) := by
  induction pages with
  | nil => intro i; exact ⟨rfl, rfl⟩
  | cons p t ih =>
    intro i
    constructor
    · show p ++ "\n" ++ (pdfLoopAux t (i + 1)).1 = _
      rw [(ih (i + 1)).1, List.map_cons, strJoin_cons, String.append_assoc]
    · show (if i % 5 = 0 then [i] else []) ++ (pdfLoopAux t (i + 1)).2 = _
      rw [(ih (i + 1)).2, List.length_cons, List.range'_succ, List.filter_cons]
      by_cases hi : i % 5 = 0 <;> simp [hi]

/-- Claim C8 (amended): for a PDF of N pages whose per-page extraction
succeeds, the extracted text is the concatenation of each page's text
each followed by a newline (pages joined by newlines plus a trailing
newline); the loop yields to the scheduler after the 1st page and after
every 5th page thereafter (pages with 0-based index divisible by 5,
`page_num % 5 == 0`), hence at least one yield occurs whenever N ≥ 1 —
in particular whenever N ≥ 6. -/
theorem C8_pdf_concat_and_yields :
    ∀ pages : List String,
      (extract_text_from_pdf pages).1 = String.join (pages.map (fun p => p ++ "\n"))
      ∧ (extract_text_from_pdf pages).2
          = (List.range pages.length).filter (fun i => i % 5 = 0)
      ∧ (1 ≤ pages.length → (extract_text_from_pdf pages).2 ≠ []) := by
  intro pages
  unfold extract_text_from_pdf
  have h := pdfLoopAux_spec pages 0
  have h2 : (pdfLoopAux pages 0).2 = (List.range pages.length).filter (fun i => i % 5 = 0) := by
    rw [h.2, List.range_eq_range']
  refine ⟨h.1, h2, ?_⟩
  intro hlen
  rw [h2]
  have h0 : (0 : ℕ) ∈ (List.range pages.length).filter (fun i => i % 5 = 0) :=
    List.mem_filter.mpr ⟨List.mem_range.mpr hlen, by decide⟩
  exact List.ne_nil_of_mem h0

/-- Claim C8 witness: a six-page PDF yields at least once, and its text
carries the trailing newline after every page. -/
theorem C8_witness :
    (extract_text_from_pdf ["a", "b", "c", "d", "e", "f"]).2 ≠ []
    ∧ (extract_text_from_pdf ["a", "b", "c", "d", "e", "f"]).1 = "a\nb\nc\nd\ne\nf\n" :=
  ⟨(C8_pdf_concat_and_yields ["a", "b", "c", "d", "e", "f"]).2.2 (by decide), rfl⟩

/-- Behavior of `List.lookup` on a cons cell, with propositional equality. -/
theorem lookup_cons' (a b k : String) (t : List (String × String)) :
    ((a, b) :: t).lookup k = if k = a then some b else t.lookup k := by
  by_cases h : k = a
  · simp [List.lookup, h]
  · have hb : (k == a) = false := by simpa using h
    simp [List.lookup, hb, h]

/-- Replacing the value stored under `k` does not affect other keys. -/
theorem lookup_map_replace (t : List (String × String)) (k v k' : String) (hne : k' ≠ k) :
    (t.map (fun p => if p.1 = k then (k, v) else p)).lookup k' = t.lookup k' := by
  induction t with
  | nil => rfl
  | cons p t ih =>
    rcases p with ⟨a, b⟩
    by_cases hak : a = k
    · simp [hak, lookup_cons', hne, ih]
    · simp [hak, lookup_cons', ih]

/-- Replacing the value stored under a present key makes its lookup the
new value. -/
theorem lookup_map_replace_self (t : List (String × String)) (k v : String)
    (hmem : t.any (fun p => p.1 = k) = true) :
    (t.map (fun p => if p.1 = k then (k, v) else p)).lookup k = some v := by
  induction t with
  | nil => simp at hmem
  | cons p t ih =>
    rcases p with ⟨a, b⟩
    by_cases hak : a = k
    · simp [hak, lookup_cons']
    · simp only [List.any_cons] at hmem
      have hmem' : t.any (fun p => p.1 = k) = true := by
        simpa [hak] using hmem
      have hka : k ≠ a := fun h => hak h.symm
      simp [hak, lookup_cons', hka, ih hmem']

/-- A key reported absent by `any` looks up to `none`. -/
theorem lookup_none_of_any_false (t : List (String × String)) (k : String)
    (h : t.any (fun p => p.1 = k) = false) : t.lookup k = none := by
  induction t with
  | nil => rfl
  | cons p t ih =>
    rcases p with ⟨a, b⟩
    simp only [List.any_cons, Bool.or_eq_false_iff] at h
    have hka : k ≠ a := by
      intro e
      rcases h with ⟨h1, _⟩
      simp [e] at h1
    simp [lookup_cons', hka, ih h.2]

/-- Lookup distributes over append, first list winning. -/
theorem lookup_append' (l1 l2 : List (String × String)) (k : String) :
    (l1 ++ l2).lookup k = ((l1.lookup k).orElse (fun _ => l2.lookup k)) := by
  induction l1 with
  | nil => simp [List.lookup]
  | cons p t ih =>
    rcases p with ⟨a, b⟩
    by_cases h : k = a <;> simp [lookup_cons', h, ih]

/-- Pointwise behavior of Python dict assignment `d[k] = v`. -/
theorem lookup_setHeader (hs : List (String × String)) (k v k' : String) :
    (setHeader hs k v).lookup k' = if k' = k then some v else hs.lookup k' := by
  unfold setHeader
  by_cases hany : hs.any (fun p => p.1 = k) = true
  · by_cases hk : k' = k
    · subst hk; simp [hany, lookup_map_replace_self hs k' v hany]
    · simp [hany, lookup_map_replace hs k v k' hk, hk]
  · have hf : hs.any (fun p => p.1 = k) = false := by
      cases h2 : hs.any (fun p => p.1 = k) with
      | false => rfl
      | true => exact absurd h2 hany
    rw [hf]
    simp only [Bool.false_eq_true, if_false]
    rw [lookup_append']
    by_cases hk : k' = k
    · subst hk
      simp [lookup_none_of_any_false hs k' hf, lookup_cons', List.lookup]
    · have hb : (k' == k) = false := by simpa using hk
      cases hx : hs.lookup k' <;> simp [hx, lookup_cons', hk, hb, List.lookup]

/-- Folding dict assignments of a duplicate-free update map over a base
map: the update map wins where defined. -/
theorem lookup_update_many (call : List (String × String)) :
    ∀ (base : List (String × String)) (k : String), (call.map Prod.fst).Nodup →
      ((call.foldl (fun acc p => setHeader acc p.1 p.2) base).lookup k)
        = ((call.lookup k).orElse (fun _ => base.lookup k)) := by
  induction call with
  | nil => intro base k _; simp [List.lookup]
  | cons p t ih =>
    intro base k hnd
    rcases p with ⟨a, b⟩
    have h0 : a ∉ t.map Prod.fst ∧ (t.map Prod.fst).Nodup := by
      simpa [List.nodup_cons] using hnd
    simp only [List.foldl_cons]
    rw [ih (setHeader base a b) k h0.2]
    by_cases hk : k = a
    · subst hk
      have ht : t.lookup k = none := by
        have : t.any (fun p => p.1 = k) = false := by
          rcases h1 : t.any (fun p => p.1 = k) with _ | _
          · rfl
          · exfalso
            rcases List.any_eq_true.mp h1 with ⟨q, hq, hq2⟩
            exact h0.1 (List.mem_map.mpr ⟨q, hq, by simpa using hq2⟩)
        exact lookup_none_of_any_false t k this
      simp [ht, lookup_setHeader, lookup_cons']
    · simp [lookup_setHeader, lookup_cons', hk]

/-- Claim C5: the effective headers of a flow request are the default
headers merged with the per-call headers (per-call values winning), after
which `x-api-key` is set to the configured non-empty API key, overriding
any caller-supplied value for that header. Stated as a complete lookup
characterization of `_set_headers`. -/
theorem C5_header_merge :
    ∀ (defaults call : List (String × String)) (key : String), key ≠ "" →
      (call.map Prod.fst).Nodup →
      ∀ k, (set_headers defaults key call).lookup k
        = if k = "x-api-key" then some key
          else ((call.lookup k).orElse (fun _ => defaults.lookup k)) := by
  intro defaults call key hkey hnd k
  unfold set_headers
  rw [if_pos hkey, lookup_setHeader]
  by_cases hk : k = "x-api-key"
  · simp [hk]
  · simp [hk, lookup_update_many call defaults k hnd]

/-- Claim C5 witness: the spec's concrete example — defaults `{"A":"1"}`,
per-call `{"A":"2","B":"3"}`, key `"key0"` — yields exactly
`{"A":"2","B":"3","x-api-key":"key0"}`. -/
theorem C5_witness :
    set_headers [("A", "1")] "key0" [("A", "2"), ("B", "3")]
        = [("A", "2"), ("B", "3"), ("x-api-key", "key0")]
    ∧ (set_headers [("A", "1")] "key0" [("A", "2"), ("B", "3")]).lookup "A" = some "2"
    ∧ (set_headers [("A", "1")] "key0" [("A", "2"), ("B", "3")]).lookup "B" = some "3"
    ∧ (set_headers [("A", "1")] "key0" [("A", "2"), ("B", "3")]).lookup "x-api-key"
        = some "key0" := by
  refine ⟨rfl, ?_, ?_, ?_⟩ <;>
    simpa using C5_header_merge [("A", "1")] [("A", "2"), ("B", "3")] "key0"
      (by decide) (by decide) _

/-- A record carrying all three keys is accepted by the loop body. -/
theorem bulkRow_ok (oid : ℕ) (r : Json) (h : hasSkillKeys r = true) :
    ∃ row, bulkRow oid r = .ok row := by
  rcases r with _ | b | q | st | items | kvs
  · simp [hasSkillKeys] at h
  · simp [hasSkillKeys] at h
  · simp [hasSkillKeys] at h
  · simp [hasSkillKeys] at h
  · simp [hasSkillKeys] at h
  · unfold hasSkillKeys at h
    dsimp only at h
    rcases hs : objGet kvs "skill" with _ | sv
    · rw [hs] at h; simp at h
    · rcases he : objGet kvs "expertise_level" with _ | ev
      · rw [hs, he] at h; simp at h
      · rcases hp : objGet kvs "priority" with _ | pv
        · rw [hs, he, hp] at h; simp at h
        · exact ⟨_, by unfold bulkRow; dsimp only; rw [hs, he, hp]⟩

/-- A dict record lacking one of the three keys raises `KeyError`. -/
theorem bulkRow_missing (oid : ℕ) (r : Json) (ho : isObjRec r = true)
    (h : hasSkillKeys r = false) :
    ∃ k, bulkRow oid r = .error (.keyError k) := by
  rcases r with _ | b | q | st | items | kvs
  · simp [isObjRec] at ho
  · simp [isObjRec] at ho
  · simp [isObjRec] at ho
  · simp [isObjRec] at ho
  · simp [isObjRec] at ho
  · rcases hs : objGet kvs "skill" with _ | sv
    · exact ⟨"skill", by unfold bulkRow; dsimp only; rw [hs]⟩
    · rcases he : objGet kvs "expertise_level" with _ | ev
      · exact ⟨"expertise_level", by unfold bulkRow; dsimp only; rw [hs, he]⟩
      · rcases hp : objGet kvs "priority" with _ | pv
        · exact ⟨"priority", by unfold bulkRow; dsimp only; rw [hs, he, hp]⟩
        · exfalso
          unfold hasSkillKeys at h
          dsimp only at h
          rw [hs, he, hp] at h
          simp at h

theorem bulkRows_ok (oid : ℕ) (items : List Json)
    (h : ∀ r ∈ items, hasSkillKeys r = true) :
    ∃ rows, bulkRows oid items = .ok rows := by
  induction items with
  | nil => exact ⟨[], rfl⟩
  | cons r t ih =>
    obtain ⟨row, hrow⟩ := bulkRow_ok oid r (h r (List.mem_cons_self r t))
    obtain ⟨rows, hrows⟩ := ih (fun x hx => h x (List.mem_cons_of_mem r hx))
    exact ⟨row :: rows, by unfold bulkRows; rw [hrow, hrows]⟩

theorem bulkRows_err (oid : ℕ) (items : List Json)
    (ho : ∀ r ∈ items, isObjRec r = true)
    (h : ∃ r ∈ items, hasSkillKeys r = false) :
    ∃ k, bulkRows oid items = .error (.keyError k) := by
  induction items with
  | nil => simp at h
  | cons r t ih =>
    by_cases hr : hasSkillKeys r = true
    · obtain ⟨row, hrow⟩ := bulkRow_ok oid r hr
      have ht : ∃ x ∈ t, hasSkillKeys x = false := by
        rcases h with ⟨x, hx, hxf⟩
        rcases List.mem_cons.mp hx with h1 | h1
        · subst h1; rw [hr] at hxf; cases hxf
        · exact ⟨x, h1, hxf⟩
      obtain ⟨k, hk⟩ := ih (fun x hx => ho x (List.mem_cons_of_mem r hx)) ht
      exact ⟨k, by unfold bulkRows; rw [hrow, hk]⟩
    · have hrf : hasSkillKeys r = false := by simpa using hr
      obtain ⟨k, hk⟩ := bulkRow_missing oid r (ho r (List.mem_cons_self r t)) hrf
      exact ⟨k, by unfold bulkRows; rw [hk]⟩

/-- Claim C10: `bulk_create` succeeds on a list of records when every
record carries the keys `"skill"`, `"expertise_level"` and `"priority"`,
and raises `KeyError` whenever some (dict) record lacks one of them; and
`parse_skills_response` returns the `"skills"` value verbatim without any
shape validation — concretely, `{"skills": [{}]}` parses to a one-record
list on which `bulk_create` raises `KeyError('skill')`. -/
theorem C10_bulk_create_requires_keys :
    (∀ (oid : ℕ) (items : List Json), (∀ r ∈ items, hasSkillKeys r = true) →
        ∃ rows, bulk_create oid (.arr items) true = .ok rows)
    ∧ (∀ (oid : ℕ) (items : List Json), (∀ r ∈ items, isObjRec r = true) →
        (∃ r ∈ items, hasSkillKeys r = false) →
        ∃ k, bulk_create oid (.arr items) true = .error (.keyError k))
    ∧ parse_skills_response "\x7b\"skills\": [\x7b\x7d]\x7d" = Json.arr [Json.obj []]
    ∧ bulk_create 7 (Json.arr [Json.obj []]) true = .error (.keyError "skill") := by
  refine ⟨?_, ?_, rfl, rfl⟩
  · intro oid items h
    obtain ⟨rows, hrows⟩ := bulkRows_ok oid items h
    exact ⟨rows, by simp [bulk_create, pyIter, hrows]⟩
  · intro oid items ho h
    obtain ⟨k, hk⟩ := bulkRows_err oid items ho h
    exact ⟨k, by simp [bulk_create, pyIter, hk]⟩

/-- Claim C10 witness: a fully-keyed record is persisted, an empty record
raises `KeyError`. -/
theorem C10_witness :
    (∃ rows, bulk_create 1 (Json.arr [Json.obj [("skill", Json.str "Go"),
        ("expertise_level", Json.str "high"), ("priority", Json.str "must")]]) true
      = .ok rows)
    ∧ ∃ k, bulk_create 1 (Json.arr [Json.obj []]) true = .error (.keyError k) :=
  ⟨C10_bulk_create_requires_keys.1 1 _ (by decide),
   C10_bulk_create_requires_keys.2.1 1 _ (by decide)
     ⟨Json.obj [], List.mem_cons_self _ _, rfl⟩⟩

end CandidateEval
